import Mathlib

/-!
Shallow embedding of the data-acquisition core of `src/bot.py`
(FinanceBot): the EDGAR concept resolver (`get_edgar_facts` with its
inner `latest_annual` / `latest_quarterly` helpers and derived ratios),
the anti-repeat scheduler (`pick_company` over `COMPANIES` and the
persisted history), the TTL cache around the market-data fetch
(`get_market_data`), the retry loop of `_fetch_yfinance_raw`, the
history persistence (`save_history`), and the refresh cycle
(`send_update`).

Conventions: Python dicts that are iterated in insertion order are
association lists; datetimes are integer (scheduler) or rational
(cache) second counts; ISO-8601 date strings are kept as strings and
compared lexicographically, exactly as the Python code compares them;
numeric fact values are rationals; `None` is `Option.none`.
-/

namespace Bot

/-- One raw XBRL fact entry from the EDGAR companyfacts payload: the
`form`, `val` and `end` keys that `get_edgar_facts` reads.  `val` is
optional because the code checks `f.get("val") is not None`. -/
structure RawFact where
  form : String
  val : Option Rat
  periodEnd : String
  deriving DecidableEq, Repr

/-- The `units` dict of one concept: unit type ↦ list of fact entries,
in insertion order. -/
abbrev ConceptUnits := List (String × List RawFact)

/-- The `us-gaap` dict: concept name ↦ units, in insertion order. -/
abbrev Gaap := List (String × ConceptUnits)

/-- Filter used by `latest_annual`: form in ("10-K", "20-F") and
non-null value. -/
def annualForms (f : RawFact) : Bool :=
  (f.form == "10-K" || f.form == "20-F") && f.val.isSome

/-- Filter used by `latest_quarterly`: form in ("10-Q", "10-K") and
non-null value. -/
def quarterlyForms (f : RawFact) : Bool :=
  (f.form == "10-Q" || f.form == "10-K") && f.val.isSome

/-- `lst.sort(key=end, reverse=True); lst[0]`: the first element with
the maximal `end` date (Python's sort is stable, so among equal keys
the originally first entry wins). -/
def pickLatest (l : List RawFact) : Option RawFact :=
  l.foldl (fun acc f =>
    match acc with
    | none => some f
    | some a => if a.periodEnd < f.periodEnd then some f else acc) none

/-- The inner unit-type loop of `latest_annual` / `latest_quarterly`:
for the first unit type whose filtered fact list is non-empty, return
`(val, end, unit_type)` of the latest entry. -/
def firstUnitWith (p : RawFact → Bool) : ConceptUnits → Option (Rat × String × String)
  | [] => none
  | (u, fl) :: rest =>
    match pickLatest (fl.filter p) with
    | some f => some (f.val.getD 0, f.periodEnd, u)
    | none => firstUnitWith p rest

/-- The concept loop shared by `latest_annual` and `latest_quarterly`:
walk the priority-ordered synonym list, return from the first concept
(and first unit type) that yields a candidate. -/
def latestByForm (g : Gaap) (p : RawFact → Bool) : List String → Option (Rat × String × String)
  | [] => none
  | c :: rest =>
    match g.lookup c with
    | none => latestByForm g p rest
    | some units =>
      match firstUnitWith p units with
      | some r => some r
      | none => latestByForm g p rest

/-- `latest_annual` from `get_edgar_facts`. -/
def latest_annual (g : Gaap) (cs : List String) : Option (Rat × String × String) :=
  latestByForm g annualForms cs

/-- `latest_quarterly` from `get_edgar_facts`. -/
def latest_quarterly (g : Gaap) (cs : List String) : Option (Rat × String × String) :=
  latestByForm g quarterlyForms cs

/-- `latest_annual(concepts) or latest_quarterly(concepts)`: the
returned tuples are always truthy in Python, so `or` is `orElse`. -/
def resolveMetric (g : Gaap) (cs : List String) : Option (Rat × String × String) :=
  (latest_annual g cs).orElse (fun _ => latest_quarterly g cs)

/-- Whether any synonym concept has any fact passing the filter `p`
(i.e. the tier is non-empty for this metric). -/
def hasFactWith (g : Gaap) (p : RawFact → Bool) (cs : List String) : Bool :=
  cs.any (fun c =>
    match g.lookup c with
    | none => false
    | some units => units.any (fun uf => uf.2.any p))

end Bot

namespace Bot

/-! ### `get_edgar_facts`: per-metric resolution and derived ratios -/

/-- The synonym concept lists of `SEC_CONCEPTS`, in source order. -/
def revenueConcepts : List String :=
  ["Revenues", "RevenueFromContractWithCustomerExcludingAssessedTax", "SalesRevenueNet"]

def grossProfitConcepts : List String := ["GrossProfit"]

def opIncomeConcepts : List String := ["OperatingIncomeLoss"]

def netIncomeConcepts : List String := ["NetIncomeLoss"]

def ebitdaConcepts : List String :=
  ["EarningsBeforeInterestTaxesDepreciationAndAmortization"]

def epsBasicConcepts : List String := ["EarningsPerShareBasic"]

def epsDilutedConcepts : List String := ["EarningsPerShareDiluted"]

def sharesConcepts : List String := ["CommonStockSharesOutstanding"]

def totalAssetsConcepts : List String := ["Assets"]

def totalLiabilitiesConcepts : List String := ["Liabilities"]

def equityConcepts : List String :=
  ["StockholdersEquity",
   "StockholdersEquityIncludingPortionAttributableToNoncontrollingInterest"]

def cashConcepts : List String :=
  ["CashAndCashEquivalentsAtCarryingValue", "CashCashEquivalentsAndShortTermInvestments"]

def longTermDebtConcepts : List String := ["LongTermDebt", "LongTermDebtNoncurrent"]

def currentAssetsConcepts : List String := ["AssetsCurrent"]

def currentLiabConcepts : List String := ["LiabilitiesCurrent"]

def cfoConcepts : List String := ["NetCashProvidedByUsedInOperatingActivities"]

def capexConcepts : List String := ["PaymentsToAcquirePropertyPlantAndEquipment"]

def freeCfConcepts : List String := ["FreeCashFlow"]

def dividendsConcepts : List String := ["PaymentsOfDividends"]

/-- The value component stored under `result[key]` for one metric
(`latest_annual(concepts) or latest_quarterly(concepts)`, projecting
the value out of the returned triple). -/
def resolveVal (g : Gaap) (cs : List String) : Option Rat :=
  (resolveMetric g cs).map (fun t => t.1)

/-- Python truthiness of an optional number: `None` and `0` are both
falsy; every other number is truthy.  This is the test the code runs
as `if result.get(key)`. -/
def truthy : Option Rat → Bool
  | none => false
  | some v => v != 0

/-- Python `x or 0` on an optional number. -/
def orZero (o : Option Rat) : Rat := if truthy o then o.getD 0 else 0

/-- The resolved record built by `get_edgar_facts`: one optional value
per canonical metric (the `result[key]` entries; `None` when no
synonym yields a fact in either tier) plus the derived ratios. -/
structure EdgarResult where
  revenue : Option Rat
  gross_profit : Option Rat
  op_income : Option Rat
  net_income : Option Rat
  ebitda : Option Rat
  eps_basic : Option Rat
  eps_diluted : Option Rat
  shares : Option Rat
  total_assets : Option Rat
  total_liabilities : Option Rat
  equity : Option Rat
  cash : Option Rat
  long_term_debt : Option Rat
  current_assets : Option Rat
  current_liab : Option Rat
  cfo : Option Rat
  capex : Option Rat
  free_cf : Option Rat
  dividends : Option Rat
  net_margin_calc : Option Rat
  gross_margin_calc : Option Rat
  op_margin_calc : Option Rat
  debt_ratio : Option Rat
  current_ratio_calc : Option Rat
  deriving DecidableEq, Repr

/-- `get_edgar_facts` over an already-fetched `us-gaap` facts dict:
resolve every metric of `SEC_CONCEPTS`, then derive free cash flow,
the three margins, the debt ratio and the current ratio exactly under
the truthiness guards of the source. -/
def get_edgar_facts (g : Gaap) : EdgarResult :=
  let revenue := resolveVal g revenueConcepts
  let gross_profit := resolveVal g grossProfitConcepts
  let op_income := resolveVal g opIncomeConcepts
  let net_income := resolveVal g netIncomeConcepts
  let ebitda := resolveVal g ebitdaConcepts
  let eps_basic := resolveVal g epsBasicConcepts
  let eps_diluted := resolveVal g epsDilutedConcepts
  let shares := resolveVal g sharesConcepts
  let total_assets := resolveVal g totalAssetsConcepts
  let total_liabilities := resolveVal g totalLiabilitiesConcepts
  let equity := resolveVal g equityConcepts
  let cash := resolveVal g cashConcepts
  let long_term_debt := resolveVal g longTermDebtConcepts
  let current_assets := resolveVal g currentAssetsConcepts
  let current_liab := resolveVal g currentLiabConcepts
  let cfo := resolveVal g cfoConcepts
  let capex := resolveVal g capexConcepts
  let free_cf0 := resolveVal g freeCfConcepts
  let dividends := resolveVal g dividendsConcepts
  let free_cf :=
    if free_cf0 = none && truthy cfo && truthy capex then
      some (orZero cfo - |orZero capex|)
    else free_cf0
  let net_margin_calc :=
    if truthy revenue && truthy net_income then
      some (net_income.getD 0 / revenue.getD 0)
    else none
  let gross_margin_calc :=
    if truthy revenue && truthy gross_profit then
      some (gross_profit.getD 0 / revenue.getD 0)
    else none
  let op_margin_calc :=
    if truthy revenue && truthy op_income then
      some (op_income.getD 0 / revenue.getD 0)
    else none
  let debt_ratio :=
    if truthy total_liabilities && truthy total_assets then
      some (total_liabilities.getD 0 / total_assets.getD 0)
    else none
  let current_ratio_calc :=
    if truthy current_assets && truthy current_liab then
      some (current_assets.getD 0 / current_liab.getD 0)
    else none
  { revenue := revenue, gross_profit := gross_profit, op_income := op_income,
    net_income := net_income, ebitda := ebitda, eps_basic := eps_basic,
    eps_diluted := eps_diluted, shares := shares, total_assets := total_assets,
    total_liabilities := total_liabilities, equity := equity, cash := cash,
    long_term_debt := long_term_debt, current_assets := current_assets,
    current_liab := current_liab, cfo := cfo, capex := capex,
    free_cf := free_cf, dividends := dividends,
    net_margin_calc := net_margin_calc, gross_margin_calc := gross_margin_calc,
    op_margin_calc := op_margin_calc, debt_ratio := debt_ratio,
    current_ratio_calc := current_ratio_calc }

/-! ### Scheduler: `COMPANIES`, history and `pick_company` -/

/-- One entry of the `COMPANIES` configuration dict. -/
structure CompanyCfg where
  ticker : String
  cik : Option String
  currency : String
  deriving DecidableEq, Repr

/-- The `COMPANIES` dict, in insertion order. -/
def COMPANIES : List (String × CompanyCfg) :=
  [("S&P 500 (SPY)", ⟨"SPY", none, "USD"⟩),
   ("NVIDIA", ⟨"NVDA", some "0001045810", "USD"⟩),
   ("Uber", ⟨"UBER", some "0001543151", "USD"⟩),
   ("CD Projekt", ⟨"CDR.WA", none, "PLN"⟩)]

def INTERVAL_MINUTES : Nat := 15

/-- The persisted history: ticker ↦ last-sent timestamp.  Timestamps
are integer second counts measured from the default epoch
`"2000-01-01T00:00:00"`; ISO strings are totally ordered the same way
their parsed datetimes are. -/
abbrev History := List (String × Int)

/-- The default used by `history.get(ticker, "2000-01-01T00:00:00")`. -/
def EPOCH_DEFAULT : Int := 0

def lastSentOf (h : History) (ticker : String) : Int :=
  (h.lookup ticker).getD EPOCH_DEFAULT

/-- `cooldown = len(COMPANIES) * INTERVAL_MINUTES * 60` (seconds). -/
def cooldownSecs : Int := (COMPANIES.length * INTERVAL_MINUTES * 60 : Nat)

/-- The filter that builds `available` in `pick_company`. -/
def isAvailable (now : Int) (h : History) (cfg : CompanyCfg) : Bool :=
  now - lastSentOf h cfg.ticker > cooldownSecs

def availableList (now : Int) (h : History) : List (String × CompanyCfg) :=
  COMPANIES.filter (fun p => isAvailable now h p.2)

/-- Left fold of Python `min(..., key=...)`: keeps the current best on
ties, so the first entry with the minimal key wins (insertion order). -/
def minByLastSent (h : History) : List (String × CompanyCfg) → (String × CompanyCfg) →
    (String × CompanyCfg)
  | [], best => best
  | p :: rest, best =>
    minByLastSent h rest
      (if lastSentOf h p.2.ticker < lastSentOf h best.2.ticker then p else best)

/-- `min(COMPANIES.items(), key=lambda x: fromisoformat(history.get(...)))`. -/
def oldestCompany (h : History) : String × CompanyCfg :=
  match COMPANIES with
  | [] => ("", ⟨"", none, ""⟩)
  | p :: rest => minByLastSent h rest p

/-- `pick_company`.  `random.choice(available)` is modelled by an
arbitrary index `rand` reduced modulo the length of `available`, which
ranges over exactly the choices the code can make. -/
def pick_company (rand : Nat) (now : Int) (h : History) : String × CompanyCfg :=
  match availableList now h with
  | [] => oldestCompany h
  | a :: rest => (a :: rest).getD (rand % (rest.length + 1)) a

/-! ### `get_market_data`: TTL cache around the yfinance fetch -/

/-- The normalized market snapshot built by `_fetch_yfinance_raw`:
an opaque record of named optional numbers. -/
abbrev Payload := List (String × Option Rat)

/-- `CACHE_TTL = 30` (minutes). -/
def CACHE_TTL : Rat := 30

/-- `YFINANCE_WAIT = 3.0` (seconds). -/
def YFINANCE_WAIT : Rat := 3

/-- `MAX_RETRIES = 3`. -/
def MAX_RETRIES : Nat := 3

/-- The module-level `_cache` dict: ticker ↦ (timestamp, payload).
Timestamps are rational second counts. -/
abbrev Cache := List (String × (Rat × Payload))

/-- `_cache[ticker] = (now, data)`: overwrite the entry for the key,
keeping every other entry. -/
def cacheSet (c : Cache) (k : String) (v : Rat × Payload) : Cache :=
  match c with
  | [] => [(k, v)]
  | (k', v') :: rest => if k' == k then (k, v) :: rest else (k', v') :: cacheSet rest k v

/-- The observable outcome of one `get_market_data` call: the returned
payload, the cache afterwards and how many times the raw fetch
(`_fetch_yfinance_raw`) was invoked. -/
structure MarketCall where
  data : Option Payload
  cache : Cache
  fetchCalls : Nat
  deriving DecidableEq, Repr

/-- The cache-miss branch of `get_market_data`: call the raw fetch
once; on success store `(now, data)` under the ticker. -/
def marketMiss (fetchRes : Option Payload) (now : Rat) (c : Cache) (ticker : String) :
    MarketCall :=
  match fetchRes with
  | some d => ⟨some d, cacheSet c ticker (now, d), 1⟩
  | none => ⟨none, c, 1⟩

/-- `get_market_data`: return the cached payload while
`(now - cached_at)/60 < CACHE_TTL`, otherwise fetch.  `fetchRes` is
the outcome the raw fetch would produce on this call. -/
def get_market_data (fetchRes : Option Payload) (now : Rat) (c : Cache) (ticker : String) :
    MarketCall :=
  match c.lookup ticker with
  | some (cachedAt, cachedData) =>
    if (now - cachedAt) / 60 < CACHE_TTL then ⟨some cachedData, c, 0⟩
    else marketMiss fetchRes now c ticker
  | none => marketMiss fetchRes now c ticker

/-! ### `_fetch_yfinance_raw`: bounded retry with backoff -/

/-- What one attempt of the yfinance call can do: return a usable
payload, return an empty/priceless response, raise a 429-style
rate-limit error, or raise any other exception. -/
inductive FetchOutcome where
  | ok (p : Payload)
  | emptyResp
  | rateLimited
  | otherError
  deriving DecidableEq, Repr

/-- The `for attempt in range(1, MAX_RETRIES + 1)` loop of
`_fetch_yfinance_raw`, recursing on the remaining fuel.  Returns the
result, the number of attempts actually made, and the backoff sleeps
performed (in seconds): `YFINANCE_WAIT * attempt` after an empty
response, `YFINANCE_WAIT * (attempt * 2)` after a 429.  Any other
exception returns `None` immediately. -/
def fetchLoop (beh : Nat → FetchOutcome) (attempt : Nat) :
    Nat → Option Payload × Nat × List Rat
  | 0 => (none, attempt - 1, [])
  | fuel + 1 =>
    match beh attempt with
    | .ok p => (some p, attempt, [])
    | .emptyResp =>
      let r := fetchLoop beh (attempt + 1) fuel
      (r.1, r.2.1, YFINANCE_WAIT * attempt :: r.2.2)
    | .rateLimited =>
      let r := fetchLoop beh (attempt + 1) fuel
      (r.1, r.2.1, YFINANCE_WAIT * (attempt * 2) :: r.2.2)
    | .otherError => (none, attempt, [])

/-- `_fetch_yfinance_raw`, parameterized by the outcome of each
attempt. -/
def fetch_yfinance_raw (beh : Nat → FetchOutcome) : Option Payload × Nat × List Rat :=
  fetchLoop beh 1 MAX_RETRIES

/-! ### `save_history`: in-place overwrite of the history file -/

/-- Model of `json.dump(h, f)`: an injective rendering of the history
into the file contents. -/
def encodeHistory (h : History) : String :=
  String.intercalate "," (h.map (fun p => p.1 ++ "=" ++ toString p.2))

/-- The file contents after each step of `save_history`:
step 0 = before the call (previous contents `pre`);
step 1 = after `open(HISTORY_FILE, "w")`, which truncates the file;
step 2 = after `json.dump` completes. -/
def saveHistoryTrace (pre : String) (h : History) : List String :=
  [pre, "", encodeHistory h]

/-- File contents observed if the process crashes after `k` steps of
`save_history` (any `k ≥ 2` means the write completed). -/
def fileAfterCrash (pre : String) (h : History) (k : Nat) : String :=
  (saveHistoryTrace pre h).getD (min k 2) (encodeHistory h)

/-! ### `send_update`: one refresh cycle -/

/-- The externally visible actions of one `send_update` cycle, in
order: the channel messages sent and the history writes. -/
inductive BotEvent where
  | unavailableNotice (name ticker : String)
  | quoteEmbed (ticker : String)
  | edgarEmbed (ticker : String)
  | statusMsg
  | statusDeleted
  | aiEmbed (name ticker : String)
  | historySaved (h : History)
  deriving DecidableEq, Repr

/-- `history[ticker] = now`: overwrite one key of the history dict. -/
def historySet (h : History) (k : String) (v : Int) : History :=
  match h with
  | [] => [(k, v)]
  | (k', v') :: rest => if k' == k then (k, v) :: rest else (k', v') :: historySet rest k v

/-- One `send_update` cycle, parameterized by whether the channel was
found, the random pick, the clock, the loaded history and the outcomes
of the market and EDGAR fetches.  Returns the emitted events in order
and the final in-memory history. -/
def send_update (channelFound : Bool) (rand : Nat) (now : Int) (h : History)
    (market : Option Payload) (edgar : Option EdgarResult) :
    List BotEvent × History :=
  if channelFound = false then ([], h)
  else
    let pick := pick_company rand now h
    let name := pick.1
    let cfg := pick.2
    match market with
    | none =>
      let h2 := historySet h cfg.ticker now
      ([.unavailableNotice name cfg.ticker, .historySaved h2], h2)
    | some _ =>
      let edgarEvents : List BotEvent :=
        match edgar, cfg.cik with
        | some _, some _ => [.edgarEmbed cfg.ticker]
        | _, _ => []
      let h2 := historySet h cfg.ticker now
      ([.quoteEmbed cfg.ticker] ++ edgarEvents ++
        [.statusMsg, .statusDeleted, .aiEmbed name cfg.ticker, .historySaved h2], h2)

/-! ### Concrete example data used in the theorems -/

/-- The returned triple of `latestByForm` originates from an actual
fact entry: some synonym concept `c`, some unit list `(u, fl)` of that
concept, and some fact `f ∈ fl` that passes the filter, with the
returned value, period end and unit type taken from it. -/
def ProvenanceOf (g : Gaap) (p : RawFact → Bool) (cs : List String)
    (v : Rat) (e : String) (u : String) : Prop :=
  ∃ c ∈ cs, ∃ units, g.lookup c = some units ∧
    ∃ fl, (u, fl) ∈ units ∧ ∃ f ∈ fl, p f = true ∧ f.val = some v ∧ f.periodEnd = e

/-- Facts bag for the C1 example: for a single revenue concept, one
annual fact (10-K, period end 2023-12-31) and one more recent
quarterly fact (10-Q, period end 2024-03-31). -/
def c1Gaap : Gaap :=
  [("Revenues", [("USD",
    [⟨"10-K", some 100, "2023-12-31"⟩, ⟨"10-Q", some 200, "2024-03-31"⟩])])]

/-- Facts bag for the C2 counterexample: the first synonym concept of
the revenue list has an old annual fact (2020-12-31), a later synonym
has a much more recent annual fact (2023-12-31). -/
def c2Gaap : Gaap :=
  [("Revenues", [("USD", [⟨"10-K", some 5, "2020-12-31"⟩])]),
   ("RevenueFromContractWithCustomerExcludingAssessedTax",
     [("USD", [⟨"10-K", some 7, "2023-12-31"⟩])])]

/-- Facts bag for the C2 recency example: two annual facts for the
same concept and unit, period ends 2022-12-31 and 2023-12-31. -/
def c2RecencyGaap : Gaap :=
  [("Revenues", [("USD",
    [⟨"10-K", some 8, "2022-12-31"⟩, ⟨"10-K", some 9, "2023-12-31"⟩])])]

/-- Facts bag for the C8 counterexample: revenue reported as 1000000
and net income reported as the valid value 0 (both present). -/
def c8ZeroGaap : Gaap :=
  [("Revenues", [("USD", [⟨"10-K", some 1000000, "2023-12-31"⟩])]),
   ("NetIncomeLoss", [("USD", [⟨"10-K", some 0, "2023-12-31"⟩])])]

/-- Facts bag for the C8 example: revenue 1000000, net income 150000. -/
def c8MarginGaap : Gaap :=
  [("Revenues", [("USD", [⟨"10-K", some 1000000, "2023-12-31"⟩])]),
   ("NetIncomeLoss", [("USD", [⟨"10-K", some 150000, "2023-12-31"⟩])])]

/-- A history in which every tracked ticker was sent 100 seconds
before time 10000 (all four within the cooldown window). -/
def allRecentHistory : History :=
  [("SPY", 9900), ("NVDA", 9900), ("UBER", 9900), ("CDR.WA", 9900)]

/-- Fetch behavior for the C6 counterexample: 429 on the first two
attempts, success on the third. -/
def rateLimitTwiceBeh : Nat → FetchOutcome :=
  fun n => if n < 3 then .rateLimited else .ok []

/-! ## Theorems -/

/-! ### Lemmas about the concept resolver -/

theorem pickLatest_eq_none_iff (l : List RawFact) : pickLatest l = none ↔ l = [] := by
  constructor
  · intro h
    cases l with
    | nil => rfl
    | cons a as =>
      exfalso
      have key : ∀ (m : List RawFact) (f : RawFact),
          (m.foldl (fun acc g =>
            match acc with
            | none => some g
            | some a => if a.periodEnd < g.periodEnd then some g else acc) (some f)) ≠ none := by
        intro m
        induction m with
        | nil => intro f; simp
        | cons b bs ih =>
          intro f
          simp only [List.foldl]
          by_cases hb : f.periodEnd < b.periodEnd
          · simp only [hb, if_pos]
            exact ih b
          · simp only [hb, if_neg, not_false_iff]
            exact ih f
      exact key as a h
  · intro h; subst h; rfl

theorem pickLatest_mem {l : List RawFact} {f : RawFact} (h : pickLatest l = some f) :
    f ∈ l := by
  have key : ∀ (m : List RawFact) (acc : Option RawFact) (g : RawFact),
      (m.foldl (fun acc f =>
        match acc with
        | none => some f
        | some a => if a.periodEnd < f.periodEnd then some f else acc) acc) = some g →
      g ∈ m ∨ acc = some g := by
    intro m
    induction m with
    | nil => intro acc g h; right; exact h
    | cons b bs ih =>
      intro acc g h
      simp only [List.foldl] at h
      cases acc with
      | none =>
        rcases ih (some b) g h with hm | he
        · left; exact List.mem_cons_of_mem _ hm
        · left; simp at he; subst he; exact List.mem_cons_self _ _
      | some a =>
        by_cases hb : a.periodEnd < b.periodEnd
        · simp only [hb, if_pos] at h
          rcases ih (some b) g h with hm | he
          · left; exact List.mem_cons_of_mem _ hm
          · left; simp at he; subst he; exact List.mem_cons_self _ _
        · simp only [hb, if_neg, not_false_iff] at h
          rcases ih (some a) g h with hm | he
          · left; exact List.mem_cons_of_mem _ hm
          · right; exact he
  rcases key l none f h with hm | he
  · exact hm
  · simp at he

theorem pickLatest_max {l : List RawFact} {f : RawFact} (h : pickLatest l = some f) :
    ∀ g ∈ l, g.periodEnd ≤ f.periodEnd := by
  have key : ∀ (m : List RawFact) (a : RawFact) (g : RawFact),
      (m.foldl (fun acc f =>
        match acc with
        | none => some f
        | some a => if a.periodEnd < f.periodEnd then some f else acc) (some a)) = some g →
      (a.periodEnd ≤ g.periodEnd ∧ ∀ x ∈ m, x.periodEnd ≤ g.periodEnd) := by
    intro m
    induction m with
    | nil =>
      intro a g h
      simp at h; subst h
      exact ⟨le_refl _, by intro x hx; simp at hx⟩
    | cons b bs ih =>
      intro a g h
      simp only [List.foldl] at h
      by_cases hb : a.periodEnd < b.periodEnd
      · simp only [hb, if_pos] at h
        rcases ih b g h with ⟨h1, h2⟩
        refine ⟨le_trans (le_of_lt hb) h1, ?_⟩
        intro x hx
        rcases List.mem_cons.mp hx with hx | hx
        · subst hx; exact h1
        · exact h2 x hx
      · simp only [hb, if_neg, not_false_iff] at h
        rcases ih a g h with ⟨h1, h2⟩
        refine ⟨h1, ?_⟩
        intro x hx
        rcases List.mem_cons.mp hx with hx | hx
        · subst hx; exact le_trans (le_of_not_lt hb) h1
        · exact h2 x hx
  intro g hg
  cases l with
  | nil => simp at hg
  | cons a as =>
    have h' : (as.foldl (fun acc f =>
        match acc with
        | none => some f
        | some a => if a.periodEnd < f.periodEnd then some f else acc) (some a)) = some f := h
    rcases key as a f h' with ⟨h1, h2⟩
    rcases List.mem_cons.mp hg with hg | hg
    · subst hg; exact h1
    · exact h2 g hg

theorem firstUnitWith_isSome (p : RawFact → Bool) (us : ConceptUnits) :
    (firstUnitWith p us).isSome = us.any (fun uf => uf.2.any p) := by
  induction us with
  | nil => rfl
  | cons uf rest ih =>
    obtain ⟨u, fl⟩ := uf
    simp only [firstUnitWith, List.any_cons]
    split
    · next f hp =>
      have hmem : f ∈ fl.filter p := pickLatest_mem hp
      have hany : fl.any p = true := by
        rw [List.any_eq_true]
        exact ⟨f, List.mem_of_mem_filter hmem, List.of_mem_filter hmem⟩
      simp [hany]
    · next hp =>
      have hnil : fl.filter p = [] := (pickLatest_eq_none_iff _).mp hp
      have hany : fl.any p = false := by
        rw [List.any_eq_false]
        intro x hx
        exact List.filter_eq_nil_iff.mp hnil x hx
      simp [hany, ih]

theorem latestByForm_isSome (g : Gaap) (p : RawFact → Bool) (cs : List String) :
    (latestByForm g p cs).isSome = hasFactWith g p cs := by
  induction cs with
  | nil => rfl
  | cons c rest ih =>
    simp only [latestByForm, hasFactWith, List.any_cons]
    split
    · next hl =>
      simp only [Bool.false_or]
      exact ih
    · next units hl =>
      split
      · next r hf =>
        have h1 : (units.any fun uf => uf.2.any p) = true := by
          rw [← firstUnitWith_isSome, hf]; rfl
        simp [h1]
      · next hf =>
        have h1 : (units.any fun uf => uf.2.any p) = false := by
          rw [← firstUnitWith_isSome, hf]; rfl
        simp only [h1, Bool.false_or]
        exact ih

theorem firstUnitWith_provenance {p : RawFact → Bool}
    (hval : ∀ f, p f = true → f.val.isSome = true) {us : ConceptUnits}
    {v : Rat} {e u : String} (h : firstUnitWith p us = some (v, e, u)) :
    ∃ fl, (u, fl) ∈ us ∧ ∃ f ∈ fl, p f = true ∧ f.val = some v ∧ f.periodEnd = e := by
  induction us with
  | nil => simp [firstUnitWith] at h
  | cons uf rest ih =>
    obtain ⟨u', fl'⟩ := uf
    simp only [firstUnitWith] at h
    rcases hp : pickLatest (fl'.filter p) with _ | f
    · rw [hp] at h
      rcases ih h with ⟨fl, hfl, hrest⟩
      exact ⟨fl, List.mem_cons_of_mem _ hfl, hrest⟩
    · rw [hp] at h
      have hmem : f ∈ fl'.filter p := pickLatest_mem hp
      have hpf : p f = true := List.of_mem_filter hmem
      have hfin : f ∈ fl' := List.mem_of_mem_filter hmem
      obtain ⟨hv, he, hu⟩ : f.val.getD 0 = v ∧ f.periodEnd = e ∧ u' = u := by
        have := h
        simp only [Option.some.injEq, Prod.mk.injEq] at this
        exact ⟨this.1, this.2.1, this.2.2⟩
      refine ⟨fl', ?_, f, hfin, hpf, ?_, he⟩
      · rw [← hu]; exact List.mem_cons_self _ _
      · rcases hov : f.val with _ | w
        · have hs := hval f hpf
          rw [hov] at hs
          simp at hs
        · rw [hov] at hv
          simp only [Option.getD_some] at hv
          rw [hv]

theorem latestByForm_provenance {g : Gaap} {p : RawFact → Bool}
    (hval : ∀ f, p f = true → f.val.isSome = true) {cs : List String}
    {v : Rat} {e u : String} (h : latestByForm g p cs = some (v, e, u)) :
    ProvenanceOf g p cs v e u := by
  induction cs with
  | nil => simp [latestByForm] at h
  | cons c rest ih =>
    simp only [latestByForm] at h
    split at h
    · next hl =>
      rcases ih h with ⟨c', hc', hrest⟩
      exact ⟨c', List.mem_cons_of_mem _ hc', hrest⟩
    · next units hl =>
      split at h
      · next r hf =>
        rw [h] at hf
        rcases firstUnitWith_provenance hval hf with ⟨fl, hfl, hrest⟩
        exact ⟨c, List.mem_cons_self _ _, units, hl, fl, hfl, hrest⟩
      · next hf =>
        rcases ih h with ⟨c', hc', hrest⟩
        exact ⟨c', List.mem_cons_of_mem _ hc', hrest⟩

theorem annualForms_val {f : RawFact} (h : annualForms f = true) : f.val.isSome = true := by
  simp only [annualForms, Bool.and_eq_true] at h
  exact h.2

theorem quarterlyForms_val {f : RawFact} (h : quarterlyForms f = true) : f.val.isSome = true := by
  simp only [quarterlyForms, Bool.and_eq_true] at h
  exact h.2

/-! ### Helper lemmas about the scheduler and the stores -/

theorem historySet_lookup (h : History) (k : String) (v : Int) :
    (historySet h k v).lookup k = some v := by
  induction h with
  | nil => simp [historySet, List.lookup]
  | cons p rest ih =>
    obtain ⟨k', v'⟩ := p
    simp only [historySet]
    by_cases hk : k' == k
    · simp only [hk, if_pos]
      simp [List.lookup]
    · simp only [hk, if_neg, Bool.false_eq_true, not_false_iff]
      have hne : (k == k') = false := by
        rw [beq_eq_false_iff_ne]
        intro he
        exact hk (by rw [he]; exact beq_self_eq_true _)
      simp [List.lookup, hne, ih]

theorem cacheSet_lookup (c : Cache) (k : String) (v : Rat × Payload) :
    (cacheSet c k v).lookup k = some v := by
  induction c with
  | nil => simp [cacheSet, List.lookup]
  | cons p rest ih =>
    obtain ⟨k', v'⟩ := p
    simp only [cacheSet]
    by_cases hk : k' == k
    · simp only [hk, if_pos]
      simp [List.lookup]
    · simp only [hk, if_neg, Bool.false_eq_true, not_false_iff]
      have hne : (k == k') = false := by
        rw [beq_eq_false_iff_ne]
        intro he
        exact hk (by rw [he]; exact beq_self_eq_true _)
      simp [List.lookup, hne, ih]

theorem minByLastSent_spec (h : History) (l : List (String × CompanyCfg))
    (best : String × CompanyCfg) :
    (minByLastSent h l best = best ∨ minByLastSent h l best ∈ l) ∧
    lastSentOf h (minByLastSent h l best).2.ticker ≤ lastSentOf h best.2.ticker ∧
    ∀ p ∈ l, lastSentOf h (minByLastSent h l best).2.ticker ≤ lastSentOf h p.2.ticker := by
  induction l generalizing best with
  | nil =>
    refine ⟨Or.inl rfl, le_refl _, ?_⟩
    intro p hp; simp at hp
  | cons q rest ih =>
    simp only [minByLastSent]
    by_cases hq : lastSentOf h q.2.ticker < lastSentOf h best.2.ticker
    · simp only [hq, if_pos]
      rcases ih q with ⟨hmem, hle, hall⟩
      refine ⟨?_, le_trans hle (le_of_lt hq), ?_⟩
      · rcases hmem with hm | hm
        · right; rw [hm]; exact List.mem_cons_self _ _
        · right; exact List.mem_cons_of_mem _ hm
      · intro p hp
        rcases List.mem_cons.mp hp with hp | hp
        · subst hp; exact hle
        · exact hall p hp
    · simp only [hq, if_neg, not_false_iff]
      rcases ih best with ⟨hmem, hle, hall⟩
      refine ⟨?_, hle, ?_⟩
      · rcases hmem with hm | hm
        · left; exact hm
        · right; exact List.mem_cons_of_mem _ hm
      · intro p hp
        rcases List.mem_cons.mp hp with hp | hp
        · subst hp; exact le_trans hle (le_of_not_lt hq)
        · exact hall p hp

theorem oldestCompany_mem (h : History) : oldestCompany h ∈ COMPANIES := by
  rcases (minByLastSent_spec h (COMPANIES.drop 1) (COMPANIES.get ⟨0, by decide⟩)).1 with hm | hm
  · rw [show oldestCompany h = minByLastSent h (COMPANIES.drop 1) (COMPANIES.get ⟨0, by decide⟩)
        from rfl, hm]
    decide
  · have := hm
    rw [show oldestCompany h = minByLastSent h (COMPANIES.drop 1) (COMPANIES.get ⟨0, by decide⟩)
        from rfl]
    have hsub : (COMPANIES.drop 1) ⊆ COMPANIES := List.drop_subset _ _
    exact hsub this

theorem oldestCompany_min (h : History) :
    ∀ p ∈ COMPANIES, lastSentOf h (oldestCompany h).2.ticker ≤ lastSentOf h p.2.ticker := by
  intro p hp
  rcases minByLastSent_spec h (COMPANIES.drop 1) (COMPANIES.get ⟨0, by decide⟩) with ⟨_, hle, hall⟩
  have hold : oldestCompany h = minByLastSent h (COMPANIES.drop 1) (COMPANIES.get ⟨0, by decide⟩) :=
    rfl
  rw [hold]
  rcases List.mem_cons.mp (show p ∈ COMPANIES.get ⟨0, by decide⟩ :: COMPANIES.drop 1 from hp)
    with hp1 | hp1
  · rw [hp1]; exact hle
  · exact hall p hp1

/-! ### Claim theorems -/

/-- C1: for every facts bag and every priority-ordered synonym list,
`get_edgar_facts` resolution returns a fact from an annual filing form
(10-K/20-F) whenever at least one synonym has an annual fact (the
annual tier is non-empty exactly when `latest_annual` yields a result,
and that result provably originates from an annual-form fact entry),
and falls back to the quarterly tier only when no synonym has any
annual fact; in particular, with one annual fact dated 2023-12-31 and
one quarterly fact dated 2024-03-31 for the same metric, the annual
fact is returned. -/
theorem c1_annual_form_preference (g : Gaap) (cs : List String) :
    ((latest_annual g cs).isSome = hasFactWith g annualForms cs)
    ∧ (hasFactWith g annualForms cs = true →
        resolveMetric g cs = latest_annual g cs ∧
        ∃ v e u, resolveMetric g cs = some (v, e, u) ∧ ProvenanceOf g annualForms cs v e u)
    ∧ (hasFactWith g annualForms cs = false →
        resolveMetric g cs = latest_quarterly g cs)
    ∧ resolveMetric c1Gaap revenueConcepts = some (100, "2023-12-31", "USD") := by
  refine ⟨latestByForm_isSome g annualForms cs, ?_, ?_, by decide⟩
  · intro hann
    have hsome : (latest_annual g cs).isSome = true := by
      simp only [latest_annual]
      rw [latestByForm_isSome]; exact hann
    rcases Option.isSome_iff_exists.mp hsome with ⟨r, hr⟩
    obtain ⟨v, e, u⟩ := r
    have hres : resolveMetric g cs = latest_annual g cs := by
      simp [resolveMetric, hr, Option.orElse]
    refine ⟨hres, v, e, u, by rw [hres, hr], ?_⟩
    exact latestByForm_provenance (fun f hf => annualForms_val hf) hr
  · intro hann
    have hnone : latest_annual g cs = none := by
      have : (latest_annual g cs).isSome = false := by
        simp only [latest_annual]
        rw [latestByForm_isSome]; exact hann
      exact Option.not_isSome_iff_eq_none.mp (by rw [this]; exact Bool.false_ne_true)
    simp [resolveMetric, hnone, Option.orElse]

/-- C1 witness: at the concrete bag `c1Gaap` the annual tier is
non-empty, resolution takes the annual branch, and the returned fact
provably originates from an annual-form entry. -/
theorem c1_annual_form_preference_witness :
    resolveMetric c1Gaap revenueConcepts = latest_annual c1Gaap revenueConcepts ∧
    ∃ v e u, resolveMetric c1Gaap revenueConcepts = some (v, e, u) ∧
      ProvenanceOf c1Gaap annualForms revenueConcepts v e u :=
  (c1_annual_form_preference c1Gaap revenueConcepts).2.1 (by decide)

/-- C2 counterexample: the claim says resolution picks the most
recent period end among all candidate facts of the chosen tier across
every synonym concept; but on `c2Gaap` the code returns the fact of
the first synonym concept ("Revenues", period end 2020-12-31, value 5)
even though a later synonym holds an annual-tier candidate with the
strictly more recent period end 2023-12-31 (value 7). -/
theorem c2_recency_counterexample :
    resolveMetric c2Gaap revenueConcepts = some (5, "2020-12-31", "USD")
    ∧ ProvenanceOf c2Gaap annualForms revenueConcepts 7 "2023-12-31" "USD"
    ∧ ("2020-12-31" : String) < "2023-12-31" := by
  refine ⟨by decide, ?_, by rw [String.lt_iff_toList_lt]; decide⟩
  refine ⟨"RevenueFromContractWithCustomerExcludingAssessedTax", by decide,
    [("USD", [⟨"10-K", some 7, "2023-12-31"⟩])], by decide,
    [⟨"10-K", some 7, "2023-12-31"⟩], by decide,
    ⟨"10-K", some 7, "2023-12-31"⟩, by decide, by decide, by decide, by decide⟩

/-- C2 (amended): recency is selected only within the first synonym
concept (and first unit type, in insertion order) that has any
candidate in the chosen form-preference tier: among that unit type's
candidates the fact with the most recent period end is returned (the
first-listed one on ties); in particular, given two annual facts for
the same concept and unit with period ends 2022-12-31 and 2023-12-31,
resolution returns the 2023-12-31 value. -/
theorem c2_recency_within_first_concept (c u : String) (fl : List RawFact)
    (h : fl.filter annualForms ≠ []) :
    (∃ f, pickLatest (fl.filter annualForms) = some f
      ∧ f ∈ fl.filter annualForms
      ∧ (∀ f2 ∈ fl.filter annualForms, f2.periodEnd ≤ f.periodEnd)
      ∧ resolveMetric [(c, [(u, fl)])] [c] = some (f.val.getD 0, f.periodEnd, u))
    ∧ resolveMetric c2RecencyGaap revenueConcepts = some (9, "2023-12-31", "USD") := by
  constructor
  · have hsome : pickLatest (fl.filter annualForms) ≠ none := by
      intro hn
      exact h ((pickLatest_eq_none_iff _).mp hn)
    rcases Option.ne_none_iff_exists.mp hsome with ⟨f, hf⟩
    refine ⟨f, hf.symm, pickLatest_mem hf.symm, pickLatest_max hf.symm, ?_⟩
    simp [resolveMetric, latest_annual, latestByForm, firstUnitWith, List.lookup,
      hf.symm, Option.orElse]
  · simp [resolveMetric, latest_annual, latestByForm, firstUnitWith, pickLatest,
      List.lookup, Option.orElse, c2RecencyGaap, revenueConcepts, annualForms]
    decide

/-- C2 witness: the amended theorem applied to the concrete fact list
with period ends 2022-12-31 and 2023-12-31. -/
theorem c2_recency_within_first_concept_witness :
    (∃ f, pickLatest (([⟨"10-K", some 8, "2022-12-31"⟩,
        ⟨"10-K", some 9, "2023-12-31"⟩] : List RawFact).filter annualForms) = some f
      ∧ f ∈ ([⟨"10-K", some 8, "2022-12-31"⟩,
          ⟨"10-K", some 9, "2023-12-31"⟩] : List RawFact).filter annualForms
      ∧ (∀ f2 ∈ ([⟨"10-K", some 8, "2022-12-31"⟩,
          ⟨"10-K", some 9, "2023-12-31"⟩] : List RawFact).filter annualForms,
          f2.periodEnd ≤ f.periodEnd)
      ∧ resolveMetric [("Revenues", [("USD", [⟨"10-K", some 8, "2022-12-31"⟩,
          ⟨"10-K", some 9, "2023-12-31"⟩])])] ["Revenues"]
          = some (f.val.getD 0, f.periodEnd, "USD"))
    ∧ resolveMetric c2RecencyGaap revenueConcepts = some (9, "2023-12-31", "USD") :=
  c2_recency_within_first_concept "Revenues" "USD"
    [⟨"10-K", some 8, "2022-12-31"⟩, ⟨"10-K", some 9, "2023-12-31"⟩] (by decide)

/-- Unfolding of the `net_margin_calc` field of `get_edgar_facts`. -/
theorem net_margin_calc_eq (g : Gaap) :
    (get_edgar_facts g).net_margin_calc =
      if truthy (resolveVal g revenueConcepts) && truthy (resolveVal g netIncomeConcepts) then
        some ((resolveVal g netIncomeConcepts).getD 0 / (resolveVal g revenueConcepts).getD 0)
      else none := rfl

/-- Unfolding of the `gross_margin_calc` field of `get_edgar_facts`. -/
theorem gross_margin_calc_eq (g : Gaap) :
    (get_edgar_facts g).gross_margin_calc =
      if truthy (resolveVal g revenueConcepts) && truthy (resolveVal g grossProfitConcepts) then
        some ((resolveVal g grossProfitConcepts).getD 0 / (resolveVal g revenueConcepts).getD 0)
      else none := rfl

/-- Unfolding of the `op_margin_calc` field of `get_edgar_facts`. -/
theorem op_margin_calc_eq (g : Gaap) :
    (get_edgar_facts g).op_margin_calc =
      if truthy (resolveVal g revenueConcepts) && truthy (resolveVal g opIncomeConcepts) then
        some ((resolveVal g opIncomeConcepts).getD 0 / (resolveVal g revenueConcepts).getD 0)
      else none := rfl

/-- Unfolding of the `debt_ratio` field of `get_edgar_facts`. -/
theorem debt_ratio_eq (g : Gaap) :
    (get_edgar_facts g).debt_ratio =
      if truthy (resolveVal g totalLiabilitiesConcepts)
          && truthy (resolveVal g totalAssetsConcepts) then
        some ((resolveVal g totalLiabilitiesConcepts).getD 0
          / (resolveVal g totalAssetsConcepts).getD 0)
      else none := rfl

/-- Unfolding of the `current_ratio_calc` field of `get_edgar_facts`. -/
theorem current_ratio_calc_eq (g : Gaap) :
    (get_edgar_facts g).current_ratio_calc =
      if truthy (resolveVal g currentAssetsConcepts)
          && truthy (resolveVal g currentLiabConcepts) then
        some ((resolveVal g currentAssetsConcepts).getD 0
          / (resolveVal g currentLiabConcepts).getD 0)
      else none := rfl

/-- `truthy` is false exactly on `None` and `0`. -/
theorem truthy_eq_false_iff (o : Option Rat) :
    truthy o = false ↔ o = none ∨ o = some 0 := by
  cases o with
  | none => simp [truthy]
  | some v =>
    simp only [truthy]
    constructor
    · intro h
      right
      simp only [bne_eq_false_iff_eq] at h
      rw [h]
    · intro h
      rcases h with h | h
      · exact absurd h (by simp)
      · simp only [Option.some.injEq] at h
        simp [h]

/-- C3: if no synonym of a metric yields a fact in either the annual
or the quarterly tier, the resolved metric is `None` (explicit
absence, never a defaulted zero); every derived ratio whose
prerequisite metrics include an absent metric is also `None`; and a
zero or absent denominator (revenue, total_assets, current_liab)
yields an absent ratio — the embedding is total, so no error and no
infinity/NaN can be produced. -/
theorem c3_absence_propagation (g : Gaap) :
    (∀ cs, hasFactWith g annualForms cs = false →
        hasFactWith g quarterlyForms cs = false → resolveVal g cs = none)
    ∧ (get_edgar_facts g).revenue = resolveVal g revenueConcepts
    ∧ (get_edgar_facts g).net_income = resolveVal g netIncomeConcepts
    ∧ (get_edgar_facts g).gross_profit = resolveVal g grossProfitConcepts
    ∧ (get_edgar_facts g).op_income = resolveVal g opIncomeConcepts
    ∧ (get_edgar_facts g).total_assets = resolveVal g totalAssetsConcepts
    ∧ (get_edgar_facts g).total_liabilities = resolveVal g totalLiabilitiesConcepts
    ∧ (get_edgar_facts g).current_assets = resolveVal g currentAssetsConcepts
    ∧ (get_edgar_facts g).current_liab = resolveVal g currentLiabConcepts
    ∧ ((get_edgar_facts g).revenue = none ∨ (get_edgar_facts g).revenue = some 0 →
        (get_edgar_facts g).net_margin_calc = none
        ∧ (get_edgar_facts g).gross_margin_calc = none
        ∧ (get_edgar_facts g).op_margin_calc = none)
    ∧ ((get_edgar_facts g).net_income = none → (get_edgar_facts g).net_margin_calc = none)
    ∧ ((get_edgar_facts g).gross_profit = none → (get_edgar_facts g).gross_margin_calc = none)
    ∧ ((get_edgar_facts g).op_income = none → (get_edgar_facts g).op_margin_calc = none)
    ∧ ((get_edgar_facts g).total_assets = none ∨ (get_edgar_facts g).total_assets = some 0 →
        (get_edgar_facts g).debt_ratio = none)
    ∧ ((get_edgar_facts g).total_liabilities = none → (get_edgar_facts g).debt_ratio = none)
    ∧ ((get_edgar_facts g).current_liab = none ∨ (get_edgar_facts g).current_liab = some 0 →
        (get_edgar_facts g).current_ratio_calc = none)
    ∧ ((get_edgar_facts g).current_assets = none →
        (get_edgar_facts g).current_ratio_calc = none) := by
  refine ⟨?_, rfl, rfl, rfl, rfl, rfl, rfl, rfl, rfl, ?_, ?_, ?_, ?_, ?_, ?_, ?_, ?_⟩
  · intro cs hann hq
    have h1 : latest_annual g cs = none := by
      have : (latest_annual g cs).isSome = false := by
        simp only [latest_annual]; rw [latestByForm_isSome]; exact hann
      exact Option.not_isSome_iff_eq_none.mp (by rw [this]; exact Bool.false_ne_true)
    have h2 : latest_quarterly g cs = none := by
      have : (latest_quarterly g cs).isSome = false := by
        simp only [latest_quarterly]; rw [latestByForm_isSome]; exact hq
      exact Option.not_isSome_iff_eq_none.mp (by rw [this]; exact Bool.false_ne_true)
    simp [resolveVal, resolveMetric, h1, h2, Option.orElse]
  · intro hrev
    have ht : truthy (resolveVal g revenueConcepts) = false :=
      (truthy_eq_false_iff _).mpr hrev
    exact ⟨by rw [net_margin_calc_eq, ht]; simp,
      by rw [gross_margin_calc_eq, ht]; simp,
      by rw [op_margin_calc_eq, ht]; simp⟩
  · intro hni
    have ht : truthy (resolveVal g netIncomeConcepts) = false :=
      (truthy_eq_false_iff _).mpr (Or.inl hni)
    rw [net_margin_calc_eq, ht]; simp
  · intro hgp
    have ht : truthy (resolveVal g grossProfitConcepts) = false :=
      (truthy_eq_false_iff _).mpr (Or.inl hgp)
    rw [gross_margin_calc_eq, ht]; simp
  · intro hoi
    have ht : truthy (resolveVal g opIncomeConcepts) = false :=
      (truthy_eq_false_iff _).mpr (Or.inl hoi)
    rw [op_margin_calc_eq, ht]; simp
  · intro hta
    have ht : truthy (resolveVal g totalAssetsConcepts) = false :=
      (truthy_eq_false_iff _).mpr hta
    rw [debt_ratio_eq, ht]; simp
  · intro htl
    have ht : truthy (resolveVal g totalLiabilitiesConcepts) = false :=
      (truthy_eq_false_iff _).mpr (Or.inl htl)
    rw [debt_ratio_eq, ht]; simp
  · intro hcl
    have ht : truthy (resolveVal g currentLiabConcepts) = false :=
      (truthy_eq_false_iff _).mpr hcl
    rw [current_ratio_calc_eq, ht]; simp
  · intro hca
    have ht : truthy (resolveVal g currentAssetsConcepts) = false :=
      (truthy_eq_false_iff _).mpr (Or.inl hca)
    rw [current_ratio_calc_eq, ht]; simp

/-- C3 witness: on the empty facts bag every metric resolves to
`None` and every derived ratio is `None`. -/
theorem c3_absence_propagation_witness :
    resolveVal ([] : Gaap) revenueConcepts = none
    ∧ (get_edgar_facts ([] : Gaap)).net_margin_calc = none
    ∧ (get_edgar_facts ([] : Gaap)).debt_ratio = none
    ∧ (get_edgar_facts ([] : Gaap)).current_ratio_calc = none := by
  have h := c3_absence_propagation ([] : Gaap)
  refine ⟨h.1 revenueConcepts (by decide) (by decide), ?_, ?_, ?_⟩
  · exact (h.2.2.2.2.2.2.2.2.2.1 (Or.inl (h.1 revenueConcepts (by decide) (by decide)))).1
  · exact h.2.2.2.2.2.2.2.2.2.2.2.2.2.2.1
      (h.1 totalLiabilitiesConcepts (by decide) (by decide))
  · exact h.2.2.2.2.2.2.2.2.2.2.2.2.2.2.2.2
      (h.1 currentAssetsConcepts (by decide) (by decide))

theorem getD_mem {α : Type} (l : List α) (n : Nat) (d : α) (hd : d ∈ l) :
    l.getD n d ∈ l := by
  rcases Nat.lt_or_ge n l.length with hn | hn
  · rw [List.getD_eq_getElem l d hn]
    exact List.getElem_mem _
  · rw [List.getD_eq_default]
    · exact hd
    · exact hn

/-- C4: the scheduler over the 4 tracked entities with per-entity
interval `INTERVAL_MINUTES`: the cooldown window is
`len(COMPANIES) * INTERVAL_MINUTES * 60` seconds, an entity whose
lastSent is `t` is in `available` only when `now - t` exceeds that
window; when no entity is available, `pick_company` deterministically
returns the entity with the oldest lastSent (a missing entry counting
as the epoch default, ties broken by insertion order because the
minimum keeps the first minimal entry), and `pick_company` always
returns a tracked entity, so the scheduler never stalls. -/
theorem c4_scheduler_cooldown (rand : Nat) (now : Int) (h : History) :
    COMPANIES.length = 4
    ∧ cooldownSecs = ((4 * INTERVAL_MINUTES * 60 : Nat) : Int)
    ∧ (∀ p ∈ COMPANIES, ¬ (now - lastSentOf h p.2.ticker > cooldownSecs) →
        p ∉ availableList now h)
    ∧ (availableList now h = [] → pick_company rand now h = oldestCompany h)
    ∧ (∀ p ∈ COMPANIES, lastSentOf h (oldestCompany h).2.ticker ≤ lastSentOf h p.2.ticker)
    ∧ oldestCompany h ∈ COMPANIES
    ∧ pick_company rand now h ∈ COMPANIES := by
  refine ⟨by decide, by decide, ?_, ?_, oldestCompany_min h, oldestCompany_mem h, ?_⟩
  · intro p _ hno hmem
    have := List.of_mem_filter hmem
    exact hno (of_decide_eq_true this)
  · intro havail
    simp [pick_company, havail]
  · rcases havail : availableList now h with _ | ⟨a, rest⟩
    · simp only [pick_company, havail]
      exact oldestCompany_mem h
    · have hsub : availableList now h ⊆ COMPANIES := (List.filter_sublist _).subset
      apply hsub
      simp only [pick_company, havail]
      exact getD_mem _ _ _ (List.mem_cons_self _ _)

/-- C4 witness: with all four tickers sent 100 seconds before
time 10000, nothing is available and `pick_company` returns the
oldest-lastSent entity. -/
theorem c4_scheduler_cooldown_witness :
    pick_company 0 10000 allRecentHistory = oldestCompany allRecentHistory ∧
    pick_company 0 10000 allRecentHistory ∈ COMPANIES :=
  ⟨(c4_scheduler_cooldown 0 10000 allRecentHistory).2.2.2.1 (by decide),
   (c4_scheduler_cooldown 0 10000 allRecentHistory).2.2.2.2.2.2⟩

/-- C5: for a ticker cached at `t0` with the payload `p`, a read of
`get_market_data` strictly before `t0 + CACHE_TTL` minutes returns the
identical cached payload, leaves the cache unchanged and performs no
outbound fetch; a read at or after expiry performs exactly one
outbound fetch call and, on success, overwrites the cache entry for
the ticker with the new payload and the new timestamp. -/
theorem c5_cache_ttl (fetchRes : Option Payload) (t0 now : Rat) (p : Payload)
    (c : Cache) (ticker : String) (hc : c.lookup ticker = some (t0, p)) :
    (now - t0 < CACHE_TTL * 60 →
      get_market_data fetchRes now c ticker = ⟨some p, c, 0⟩)
    ∧ (CACHE_TTL * 60 ≤ now - t0 →
        (get_market_data fetchRes now c ticker).fetchCalls = 1
        ∧ (∀ d, fetchRes = some d →
            get_market_data fetchRes now c ticker = ⟨some d, cacheSet c ticker (now, d), 1⟩
            ∧ (cacheSet c ticker (now, d)).lookup ticker = some (now, d))) := by
  constructor
  · intro hlt
    have hdiv : (now - t0) / 60 < CACHE_TTL := by
      rw [div_lt_iff₀ (by norm_num : (0:Rat) < 60)]
      exact hlt
    simp [get_market_data, hc, hdiv]
  · intro hge
    have hdiv : ¬ ((now - t0) / 60 < CACHE_TTL) := by
      rw [not_lt, le_div_iff₀ (by norm_num : (0:Rat) < 60)]
      exact hge
    constructor
    · rcases fetchRes with _ | d <;> simp [get_market_data, hc, hdiv, marketMiss]
    · intro d hd
      subst hd
      exact ⟨by simp [get_market_data, hc, hdiv, marketMiss],
        cacheSet_lookup c ticker (now, d)⟩

/-- C5 witness: a ticker cached at time 0: a read at 60 seconds is
served from the cache with no fetch; a read at 1800 seconds (exactly
the 30-minute TTL) fetches and overwrites the entry. -/
theorem c5_cache_ttl_witness :
    get_market_data (some []) 60 [("NVDA", (0, []))] "NVDA" = ⟨some [], [("NVDA", (0, []))], 0⟩
    ∧ get_market_data (some [("price", some 5)]) 1800 [("NVDA", (0, []))] "NVDA"
        = ⟨some [("price", some 5)],
           cacheSet [("NVDA", (0, []))] "NVDA" (1800, [("price", some 5)]), 1⟩ :=
  ⟨(c5_cache_ttl (some []) 0 60 [] [("NVDA", (0, []))] "NVDA" rfl).1
      (by norm_num [CACHE_TTL]),
   (((c5_cache_ttl (some [("price", some 5)]) 0 1800 [] [("NVDA", (0, []))] "NVDA" rfl).2
      (by norm_num [CACHE_TTL])).2 [("price", some 5)] rfl).1⟩

/-- C6 counterexample: with a 429 rate-limit on the first two attempts
and success on the third, `_fetch_yfinance_raw` makes three attempts
(two retries, contradicting "retries exactly once / at most two
attempts per fetch call") and its backoff sleeps are the increasing
6 and 12 seconds, not a fixed interval. -/
theorem c6_retry_counterexample :
    fetch_yfinance_raw rateLimitTwiceBeh = (some [], 3, [6, 12])
    ∧ ¬ (fetch_yfinance_raw rateLimitTwiceBeh).2.1 ≤ 2 := by
  constructor
  · simp only [fetch_yfinance_raw, fetchLoop, MAX_RETRIES, rateLimitTwiceBeh, YFINANCE_WAIT]
    norm_num
  · simp only [fetch_yfinance_raw, fetchLoop, MAX_RETRIES, rateLimitTwiceBeh]
    norm_num

/-- C6 (amended): on a rate-limit outcome the fetcher sleeps an
increasing backoff (`YFINANCE_WAIT * (attempt * 2)` seconds, i.e. 6,
12, 18) and retries until the `MAX_RETRIES = 3` attempts of the loop
are exhausted — never more than `MAX_RETRIES` attempts per call — and
on any non-rate-limit, non-empty-response error it returns `None`
immediately after the first failing attempt without retrying. -/
theorem c6_retry_policy (beh : Nat → FetchOutcome) :
    (fetch_yfinance_raw beh).2.1 ≤ MAX_RETRIES
    ∧ (beh 1 = .otherError → fetch_yfinance_raw beh = (none, 1, []))
    ∧ (∀ p, beh 1 = .rateLimited → beh 2 = .rateLimited → beh 3 = .ok p →
        fetch_yfinance_raw beh = (some p, 3, [6, 12]))
    ∧ (beh 1 = .rateLimited → beh 2 = .rateLimited → beh 3 = .rateLimited →
        fetch_yfinance_raw beh = (none, 3, [6, 12, 18])) := by
  refine ⟨?_, ?_, ?_, ?_⟩
  · rcases h1 : beh 1 with p1 | _ | _ | _ <;>
      [skip;
       rcases h2 : beh 2 with p2 | _ | _ | _ <;>
         [skip; rcases h3 : beh 3 with p3 | _ | _ | _; rcases h3 : beh 3 with p3 | _ | _ | _;
          skip];
       rcases h2 : beh 2 with p2 | _ | _ | _ <;>
         [skip; rcases h3 : beh 3 with p3 | _ | _ | _; rcases h3 : beh 3 with p3 | _ | _ | _;
          skip];
       skip] <;>
      simp_all [fetch_yfinance_raw, fetchLoop, MAX_RETRIES]
  · intro h1
    simp [fetch_yfinance_raw, fetchLoop, MAX_RETRIES, h1]
  · intro p h1 h2 h3
    simp [fetch_yfinance_raw, fetchLoop, MAX_RETRIES, h1, h2, h3, YFINANCE_WAIT]
    norm_num
  · intro h1 h2 h3
    simp [fetch_yfinance_raw, fetchLoop, MAX_RETRIES, h1, h2, h3, YFINANCE_WAIT]
    norm_num

/-- C6 witness: the amended policy applied to the behavior that
rate-limits twice and then succeeds. -/
theorem c6_retry_policy_witness :
    fetch_yfinance_raw rateLimitTwiceBeh = (some [], 3, [6, 12]) :=
  (c6_retry_policy rateLimitTwiceBeh).2.2.1 [] (by decide) (by decide) (by decide)

/-- C7 counterexample: `save_history` overwrites the history file in
place (`open(HISTORY_FILE, "w")` truncates, then `json.dump` writes),
so a crash between the truncating open and the completed write leaves
an empty file that is neither the pre-write contents nor the
fully-written contents — the write is not atomic. -/
theorem c7_atomicity_counterexample :
    fileAfterCrash (encodeHistory [("NVDA", 5)]) [("NVDA", 9)] 1 = ""
    ∧ encodeHistory [("NVDA", 5)] ≠ ""
    ∧ encodeHistory [("NVDA", 9)] ≠ "" := by decide

/-- C7 (amended): a crash before `save_history` starts leaves the
pre-write contents and a crash at any point after the write completes
leaves the fully-written contents, but a crash in between can leave a
truncated (empty) file: the observable file is always one of exactly
these three states, not always one of the first two. -/
theorem c7_save_history_crash (pre : String) (h : History) (k : Nat) :
    fileAfterCrash pre h 0 = pre
    ∧ (2 ≤ k → fileAfterCrash pre h k = encodeHistory h)
    ∧ (fileAfterCrash pre h k = pre ∨ fileAfterCrash pre h k = ""
        ∨ fileAfterCrash pre h k = encodeHistory h) := by
  refine ⟨rfl, ?_, ?_⟩
  · intro hk
    have hm : min k 2 = 2 := by omega
    simp [fileAfterCrash, saveHistoryTrace, hm]
  · rcases Nat.lt_or_ge k 2 with hk | hk
    · interval_cases k
      · left; rfl
      · right; left; rfl
    · right; right
      have hm : min k 2 = 2 := by omega
      simp [fileAfterCrash, saveHistoryTrace, hm]

/-- C7 witness: with a crash immediately after the write completed
(step 2), the reloaded contents are the fully-written state. -/
theorem c7_save_history_crash_witness :
    fileAfterCrash "old" [("NVDA", 9)] 2 = encodeHistory [("NVDA", 9)] :=
  (c7_save_history_crash "old" [("NVDA", 9)] 2).2.1 (by decide)

/-- C8 counterexample: with revenue resolved to 1000000 and net income
present with the valid reported value 0, the claim requires the net
margin 0/1000000 = 0 to be computed; the code's truthiness guard
treats the zero as missing and leaves the margin absent. -/
theorem c8_zero_margin_counterexample :
    (get_edgar_facts c8ZeroGaap).revenue = some 1000000
    ∧ (get_edgar_facts c8ZeroGaap).net_income = some 0
    ∧ (get_edgar_facts c8ZeroGaap).net_margin_calc = none := by decide

/-- C8 (amended): margins are derived only when both operands are
present and nonzero (the truthiness guard suppresses zero-valued
prerequisites): when revenue and the numerator are both some nonzero
value, net margin = net_income / revenue, gross margin =
gross_profit / revenue and operating margin = op_income / revenue; in
particular revenue 1000000 and net income 150000 give exactly 3/20 =
0.15. -/
theorem c8_margin_computation (g : Gaap) (rv ni gp oi : Rat) :
    ((get_edgar_facts g).revenue = some rv → rv ≠ 0 →
      (get_edgar_facts g).net_income = some ni → ni ≠ 0 →
      (get_edgar_facts g).net_margin_calc = some (ni / rv))
    ∧ ((get_edgar_facts g).revenue = some rv → rv ≠ 0 →
      (get_edgar_facts g).gross_profit = some gp → gp ≠ 0 →
      (get_edgar_facts g).gross_margin_calc = some (gp / rv))
    ∧ ((get_edgar_facts g).revenue = some rv → rv ≠ 0 →
      (get_edgar_facts g).op_income = some oi → oi ≠ 0 →
      (get_edgar_facts g).op_margin_calc = some (oi / rv))
    ∧ (get_edgar_facts c8MarginGaap).net_margin_calc = some (3 / 20) := by
  refine ⟨?_, ?_, ?_, ?_⟩
  · intro hrv hrv0 hni hni0
    have hrv2 : resolveVal g revenueConcepts = some rv := hrv
    have hni2 : resolveVal g netIncomeConcepts = some ni := hni
    rw [net_margin_calc_eq, hrv2, hni2]
    simp [truthy, hrv0, hni0]
  · intro hrv hrv0 hgp hgp0
    have hrv2 : resolveVal g revenueConcepts = some rv := hrv
    have hgp2 : resolveVal g grossProfitConcepts = some gp := hgp
    rw [gross_margin_calc_eq, hrv2, hgp2]
    simp [truthy, hrv0, hgp0]
  · intro hrv hrv0 hoi hoi0
    have hrv2 : resolveVal g revenueConcepts = some rv := hrv
    have hoi2 : resolveVal g opIncomeConcepts = some oi := hoi
    rw [op_margin_calc_eq, hrv2, hoi2]
    simp [truthy, hrv0, hoi0]
  · have hrv2 : resolveVal c8MarginGaap revenueConcepts = some 1000000 := by decide
    have hni2 : resolveVal c8MarginGaap netIncomeConcepts = some 150000 := by decide
    rw [net_margin_calc_eq, hrv2, hni2]
    norm_num [truthy]

/-- C8 witness: the amended computation applied at the concrete bag
with revenue 1000000 and net income 150000. -/
theorem c8_margin_computation_witness :
    (get_edgar_facts c8MarginGaap).net_margin_calc = some ((150000 : Rat) / 1000000) :=
  (c8_margin_computation c8MarginGaap 1000000 150000 1 1).1
    (by decide) (by norm_num) (by decide) (by norm_num)

/-- C9: when the market fetch yields no payload, the cycle with a
found channel emits exactly a clearly marked data-unavailable notice
followed by a history save (no quote/EDGAR/AI bundle events), the
attempt is recorded in history (the picked ticker's lastSent becomes
`now`, so it is immediately back in cooldown and the scheduler moves
on), and the history save is the last action of the cycle. -/
theorem c9_unavailable_cycle (rand : Nat) (now : Int) (h : History)
    (edgar : Option EdgarResult) :
    (send_update true rand now h none edgar).1 =
      [BotEvent.unavailableNotice (pick_company rand now h).1
        (pick_company rand now h).2.ticker,
       BotEvent.historySaved (historySet h (pick_company rand now h).2.ticker now)]
    ∧ (send_update true rand now h none edgar).2 =
        historySet h (pick_company rand now h).2.ticker now
    ∧ lastSentOf (send_update true rand now h none edgar).2
        (pick_company rand now h).2.ticker = now
    ∧ isAvailable now (send_update true rand now h none edgar).2
        (pick_company rand now h).2 = false
    ∧ (send_update true rand now h none edgar).1.getLast? =
        some (BotEvent.historySaved (send_update true rand now h none edgar).2) := by
  refine ⟨rfl, rfl, ?_, ?_, rfl⟩
  · show lastSentOf (historySet h (pick_company rand now h).2.ticker now)
      (pick_company rand now h).2.ticker = now
    rw [lastSentOf, historySet_lookup]
    rfl
  · show isAvailable now (historySet h (pick_company rand now h).2.ticker now)
      (pick_company rand now h).2 = false
    rw [isAvailable, lastSentOf, historySet_lookup]
    simp [cooldownSecs]
    positivity

/-- C10: when the raw fetch fails (returns no payload) on a cache miss,
`get_market_data` returns `None`, performs exactly one fetch attempt,
and leaves the cache entirely unchanged — no entry is written or
overwritten for the ticker — so any later call observes the same cache
it would have observed before the failure, and a later call for the
same (still absent or still stale) ticker performs a fresh outbound
fetch attempt rather than serving the failure from cache. -/
theorem c10_failed_fetch_no_cache_write (now : Rat) (c : Cache) (ticker : String)
    (hmiss : ∀ t0 p, c.lookup ticker = some (t0, p) → CACHE_TTL * 60 ≤ now - t0) :
    get_market_data none now c ticker = ⟨none, c, 1⟩
    ∧ (∀ fetch2 now2,
        get_market_data fetch2 now2 (get_market_data none now c ticker).cache ticker
          = get_market_data fetch2 now2 c ticker)
    ∧ (∀ fetch2 now2, now ≤ now2 →
        (get_market_data fetch2 now2 (get_market_data none now c ticker).cache
          ticker).fetchCalls = 1) := by
  have hmain : get_market_data none now c ticker = ⟨none, c, 1⟩ := by
    rcases hl : c.lookup ticker with _ | tp
    · simp [get_market_data, hl, marketMiss]
    · obtain ⟨t0, p⟩ := tp
      have hstale : ¬ ((now - t0) / 60 < CACHE_TTL) := by
        rw [not_lt, le_div_iff₀ (by norm_num : (0:Rat) < 60)]
        exact hmiss t0 p hl
      simp [get_market_data, hl, hstale, marketMiss]
  refine ⟨hmain, ?_, ?_⟩
  · intro fetch2 now2
    rw [hmain]
  · intro fetch2 now2 hnow
    rw [hmain]
    rcases hl : c.lookup ticker with _ | tp
    · rcases fetch2 with _ | d <;> simp [get_market_data, hl, marketMiss]
    · obtain ⟨t0, p⟩ := tp
      have hstale : ¬ ((now2 - t0) / 60 < CACHE_TTL) := by
        rw [not_lt, le_div_iff₀ (by norm_num : (0:Rat) < 60)]
        calc CACHE_TTL * 60 ≤ now - t0 := hmiss t0 p hl
          _ ≤ now2 - t0 := by linarith
      rcases fetch2 with _ | d <;> simp [get_market_data, hl, hstale, marketMiss]

/-- C10 witness: on an empty cache a failed fetch returns `None`,
makes one attempt and writes nothing. -/
theorem c10_failed_fetch_no_cache_write_witness :
    get_market_data none 5 [] "NVDA" = ⟨none, [], 1⟩ :=
  (c10_failed_fetch_no_cache_write 5 [] "NVDA"
    (by intro t0 p hp; simp [List.lookup] at hp)).1

end Bot
